import Mathlib

set_option maxRecDepth 8000

/-!
Verification development for the Mantra-Pair repository.

The embedding covers, from src/index.js (the current build and the bundled
legacy build) and src/scripts/decrypt-session.js:

  * the retry policy (shouldRetry, isRetryableDisconnectReason, the call-site
    gate, and the linear-with-cap backoff),
  * phone validation and the POST /api/pair creation handler,
  * the EXPORT_ENCRYPTED / SESSION_SECRET boot check,
  * the credential exporters (plain and encrypted) together with base64,
    URL-safe base64, the JSON envelope and the offline decrypt utility,
  * a small-step transition system for the session lifecycle (socket
    creation, the connection.update close handler, the requestPairingCode
    flow, retry backoff continuations, timers and cleanupSession), faithful
    to the cooperative single-threaded async semantics of the source.

Strings are modelled as List Char, byte buffers as List Nat with entries
below 256.  aes-256-gcm and scrypt are external platform primitives: they
are modelled by an AEAD interface carrying exactly their documented
functional contract, and an opaque key-derivation parameter.
-/

namespace Mantra

/-! ### Disconnect reason codes (numeric values of the protocol library enum) -/

def DisconnectReason.connectionClosed : Nat := 428

def DisconnectReason.connectionLost : Nat := 408

def DisconnectReason.timedOut : Nat := 408

def DisconnectReason.loggedOut : Nat := 401

def DisconnectReason.restartRequired : Nat := 515

def DisconnectReason.unavailableService : Nat := 503

def DisconnectReason.connectionReplaced : Nat := 440

def DisconnectReason.forbidden : Nat := 403

/-! ### Retry policy -/

/-- Legacy build, src/index.js lines 100-110: attempt-count check first,
then undefined/null is transient, then a four-entry allow-list. -/
def shouldRetry (maxRetries retries : Nat) (reason : Option Nat) : Bool :=
  if maxRetries ≤ retries then false
  else
    match reason with
    | none => true
    | some r =>
      [DisconnectReason.connectionClosed, DisconnectReason.connectionLost,
       DisconnectReason.timedOut, DisconnectReason.restartRequired].contains r

/-- Current build, src/index.js lines 584-594: undefined/null is transient,
otherwise a five-entry allow-list including unavailableService. -/
def isRetryableDisconnectReason (reason : Option Nat) : Bool :=
  match reason with
  | none => true
  | some r =>
    [DisconnectReason.connectionClosed, DisconnectReason.connectionLost,
     DisconnectReason.timedOut, DisconnectReason.restartRequired,
     DisconnectReason.unavailableService].contains r

/-- Call-site retry decision of the current build (lines 776 and 819):
isRetryableDisconnectReason(reason) and retries below MAX_RETRIES. -/
def retryGate (maxRetries retries : Nat) (reason : Option Nat) : Bool :=
  isRetryableDisconnectReason reason && decide (retries < maxRetries)

/-- Backoff of the current build (lines 780 and 823):
Math.min(RETRY_DELAY_MAX_MS, RETRY_DELAY_MS * s.retries). -/
def backoffDelay (baseDelayMs capMs attemptCount : Nat) : Nat :=
  min capMs (baseDelayMs * attemptCount)

/-! ### Phone validation and session creation (POST /api/pair) -/

/-- src/index.js lines 540-546: strip every non-digit, then require 10-15
remaining digits. -/
def validatePhone (phone : List Char) : Option (List Char) :=
  let cleaned := phone.filter Char.isDigit
  if cleaned.length < 10 ∨ 15 < cleaned.length then none else some cleaned

def methodCodeLit : String := "code"

def methodQrLit : String := "qr"

/-- src/index.js lines 886-897 (registry effect of the handler): reject an
unknown method, for method code reject an invalid phone with 400 and leave
the registry untouched, otherwise store a fresh session id and answer 200.
The result is (http status, returned id, registry after the call). -/
def pairHandler (sessions : List (List Char)) (method : String) (phone : List Char)
    (freshId : List Char) : Nat × Option (List Char) × List (List Char) :=
  if method ≠ methodCodeLit ∧ method ≠ methodQrLit then (400, none, sessions)
  else if method = methodCodeLit then
    match validatePhone phone with
    | none => (400, none, sessions)
    | some _ => (200, some freshId, freshId :: sessions)
  else (200, some freshId, freshId :: sessions)

/-! ### Boot check (src/index.js lines 524-528) -/

def bootErrMsg : String := "SESSION_SECRET is required when EXPORT_ENCRYPTED=true"

/-- Module-level startup of the current build: SESSION_SECRET is the trimmed
environment value; if EXPORT_ENCRYPTED is set and the secret is empty the
module throws before any route or registry exists.  On success the server
starts with an empty session registry. -/
def boot (exportEncrypted : Bool) (sessionSecretEnv : String) :
    Except String (List (List Char)) :=
  if exportEncrypted ∧ sessionSecretEnv.trim = "" then Except.error bootErrMsg
  else Except.ok []

/-! ### Base64 (model of Buffer base64, used by both builds and the CLI) -/

def b64Chars : List Char :=
  "ABCDEFGHIJKLMNOPQRSTUVWXYZabcdefghijklmnopqrstuvwxyz0123456789+/".toList

def b64Char (n : Nat) : Char := b64Chars.getD n 'A'

def b64Val (c : Char) : Nat := b64Chars.indexOf c

def b64Encode : List Nat → List Char
  | [] => []
  | [b0] => [b64Char (b0 / 4), b64Char (b0 % 4 * 16), '=', '=']
  | [b0, b1] =>
    [b64Char (b0 / 4), b64Char (b0 % 4 * 16 + b1 / 16), b64Char (b1 % 16 * 4), '=']
  | b0 :: b1 :: b2 :: rest =>
    b64Char (b0 / 4) :: b64Char (b0 % 4 * 16 + b1 / 16) ::
      b64Char (b1 % 16 * 4 + b2 / 64) :: b64Char (b2 % 64) :: b64Encode rest

def b64Decode : List Char → Option (List Nat)
  | [] => some []
  | c0 :: c1 :: c2 :: c3 :: rest =>
    if c2 = '=' then
      if c3 = '=' ∧ rest = [] then some [b64Val c0 * 4 + b64Val c1 / 16] else none
    else if c3 = '=' then
      if rest = [] then
        some [b64Val c0 * 4 + b64Val c1 / 16, b64Val c1 % 16 * 16 + b64Val c2 / 4]
      else none
    else
      match b64Decode rest with
      | some bs =>
        some ((b64Val c0 * 4 + b64Val c1 / 16) :: (b64Val c1 % 16 * 16 + b64Val c2 / 4) ::
          (b64Val c2 % 4 * 64 + b64Val c3) :: bs)
      | none => none
  | _ => none

/-! ### URL-safe base64 (src/index.js lines 555-557 and the CLI, lines 4-8) -/

def subUrl (c : Char) : Char := if c = '+' then '-' else if c = '/' then '_' else c

def unsubUrl (c : Char) : Char := if c = '-' then '+' else if c = '_' then '/' else c

/-- replace(/=+$/g, ''). -/
def stripEq (s : List Char) : List Char :=
  (s.reverse.dropWhile (fun c => c == '=')).reverse

/-- CLI lines 5-7: re-add '=' up to a multiple of four. -/
def padEq (s : List Char) : List Char :=
  if s.length % 4 = 0 then s else s ++ List.replicate (4 - s.length % 4) '='

def b64url (bytes : List Nat) : List Char := stripEq ((b64Encode bytes).map subUrl)

def b64urlDecodeToBuf (s : List Char) : Option (List Nat) :=
  b64Decode (padEq (s.map unsubUrl))

/-! ### UTF-8 (all payload characters produced here are ASCII) -/

def utf8Encode (s : List Char) : List Nat := s.map Char.toNat

def utf8Decode (bytes : List Nat) : List Char := bytes.map Char.ofNat

/-! ### Decimal rendering of JSON numbers -/

def natToDecAux : Nat → Nat → List Char
  | 0, _ => []
  | fuel + 1, n =>
    if n = 0 then [] else natToDecAux fuel (n / 10) ++ [Nat.digitChar (n % 10)]

def natToDec (n : Nat) : List Char := if n = 0 then ['0'] else natToDecAux n n

/-! ### The JSON envelope (JSON.stringify of v:1, creds, ts in that key order) -/

def litEnvV : List Char := "\x7b\"v\":".toList

def litCredsKey : List Char := ",\"creds\":\"".toList

def litTsKey : List Char := "\",\"ts\":".toList

def litEnvEnd : List Char := "\x7d".toList

def jsonEnvelope (creds : List Char) (ts : Nat) : List Char :=
  litEnvV ++ (natToDec 1 ++ (litCredsKey ++ (creds ++ (litTsKey ++
    (natToDec ts ++ litEnvEnd)))))

/-! ### Envelope parsing (JSON.parse restricted to the schema the CLI then
checks: an object with a number v, a string creds and a number ts) -/

def stripLit : List Char → List Char → Option (List Char)
  | [], s => some s
  | _ :: _, [] => none
  | l :: ls, c :: cs => if l = c then stripLit ls cs else none

def parseNatCh (s : List Char) : Option (Nat × List Char) :=
  let digs := s.takeWhile Char.isDigit
  if digs = [] then none
  else some (digs.foldl (fun a c => a * 10 + (c.toNat - 48)) 0, s.dropWhile Char.isDigit)

def parseEnvelope (s : List Char) : Option (Nat × List Char × Nat) := do
  let s1 ← stripLit litEnvV s
  let (v, s2) ← parseNatCh s1
  let s3 ← stripLit litCredsKey s2
  let creds := s3.takeWhile (fun c => c != '"')
  let s4 := s3.dropWhile (fun c => c != '"')
  let s5 ← stripLit litTsKey s4
  let (ts, s6) ← parseNatCh s5
  let s7 ← stripLit litEnvEnd s6
  if s7 = [] then some (v, creds, ts) else none

/-! ### Authenticated encryption interface

aes-256-gcm is a platform primitive, external to the repository; the model
carries its documented functional contract: the ciphertext has the
plaintext's length, the tag has 16 bytes, outputs are bytes, and decryption
with the matching key, nonce and tag restores the plaintext. -/

structure AEAD where
  enc : List Nat → List Nat → List Nat → List Nat × List Nat
  dec : List Nat → List Nat → List Nat → List Nat → Option (List Nat)
  ct_length : ∀ key nonce p, (enc key nonce p).1.length = p.length
  tag_length : ∀ key nonce p, (enc key nonce p).2.length = 16
  out_bytes : ∀ key nonce p, (∀ x ∈ p, x < 256) →
    ∀ x, x ∈ (enc key nonce p).1 ∨ x ∈ (enc key nonce p).2 → x < 256
  dec_enc : ∀ key nonce p, dec key nonce (enc key nonce p).2 (enc key nonce p).1 = some p

def saltChars : List Char := "mantra-pair".toList

def litMantra : List Char := "Mantra~".toList

def litMantraEnc : List Char := "MantraEnc~".toList

/-- Legacy build, src/index.js lines 87-90. -/
def exportSessionTokens (credsContent : List Nat) : List (List Char) :=
  [litMantra ++ b64Encode credsContent]

/-- Current build, src/index.js lines 559-575.  The random nonce (iv) and
the timestamp are inputs of the surrounding process, so they are
parameters; kdf is the scrypt primitive (same fixed salt and length as the
source). -/
def exportTokensFromCreds (A : AEAD) (kdf : List Char → List Char → Nat → List Nat)
    (secret : List Char) (exportEncrypted : Bool) (iv : List Nat) (ts : Nat)
    (credsBytes : List Nat) : List (List Char) :=
  let base64Creds := b64Encode credsBytes
  if !exportEncrypted then [litMantra ++ base64Creds]
  else
    let key := kdf secret saltChars 32
    let payload := utf8Encode (jsonEnvelope base64Creds ts)
    let ct := (A.enc key iv payload).1
    let tag := (A.enc key iv payload).2
    [litMantraEnc ++ b64url (iv ++ tag ++ ct)]

/-- The encrypted token, spelled out: literal prefix then URL-safe base64
without padding of nonce, auth tag and ciphertext of the UTF-8 JSON
envelope. -/
def encTokenOf (A : AEAD) (kdf : List Char → List Char → Nat → List Nat)
    (secret : List Char) (iv : List Nat) (ts : Nat) (credsBytes : List Nat) : List Char :=
  let key := kdf secret saltChars 32
  let payload := utf8Encode (jsonEnvelope (b64Encode credsBytes) ts)
  litMantraEnc ++ b64url (iv ++ (A.enc key iv payload).2 ++ (A.enc key iv payload).1)

def errUsage : String := "Usage"

def errNoSecret : String := "SESSION_SECRET is required"

def errBadB64 : String := "Invalid base64 payload"

def errTooShort : String := "Token too short"

def errDecryptFailed : String := "Decrypt failed"

def errBadJson : String := "Invalid payload JSON"

def errBadFormat : String := "Unexpected payload format"

/-- src/scripts/decrypt-session.js: check the prefix and the secret, decode
the URL-safe base64, require at least 12+16+1 bytes, split nonce / tag /
ciphertext, decrypt, parse the JSON envelope, require v = 1, and emit the
base64-decoded creds field.  (Buffer.from base64 never throws in Node; the
two base64 error branches are unreachable for well-formed tokens.) -/
def decryptSession (A : AEAD) (kdf : List Char → List Char → Nat → List Nat)
    (secret : List Char) (token : List Char) : Except String (List Nat) :=
  if ¬ litMantraEnc.isPrefixOf token then Except.error errUsage
  else if secret = [] then Except.error errNoSecret
  else
    match b64urlDecodeToBuf (token.drop litMantraEnc.length) with
    | none => Except.error errBadB64
    | some packed =>
      if packed.length < 12 + 16 + 1 then Except.error errTooShort
      else
        let iv := packed.take 12
        let tag := (packed.drop 12).take 16
        let ciphertext := packed.drop 28
        let key := kdf secret saltChars 32
        match A.dec key iv tag ciphertext with
        | none => Except.error errDecryptFailed
        | some plaintext =>
          match parseEnvelope (utf8Decode plaintext) with
          | none => Except.error errBadJson
          | some (v, creds, _) =>
            if v ≠ 1 then Except.error errBadFormat
            else
              match b64Decode creds with
              | some out => Except.ok out
              | none => Except.error errBadFormat

/-- A concrete instance of the AEAD interface, used to evaluate theorems
about the exporter and the decrypt utility on closed inputs. -/
def trivAEAD : AEAD where
  enc := fun _ _ p => (p, List.replicate 16 0)
  dec := fun _ _ tag ct => if tag = List.replicate 16 0 then some ct else none
  ct_length := fun _ _ _ => rfl
  tag_length := fun _ _ _ => by simp
  out_bytes := by
    intro _ _ p hp x hx
    rcases hx with h | h
    · exact hp x h
    · have := List.eq_of_mem_replicate h
      omega
  dec_enc := fun _ _ _ => by simp

def trivKdf : List Char → List Char → Nat → List Nat := fun _ _ _ => []

/-! ### Session lifecycle transition system (current build)

The source is single-threaded cooperative async code: every handler runs
atomically between awaits, and the pending continuations at awaits are the
unit of interleaving.  The model tracks one session object s (the other
sessions are fully independent), the registry membership sessions.has(s.id),
the set of protocol sockets created for s and not yet ended ("live"), a
fresh-socket counter, and the multiset of pending continuations:

  * startP      - startPairing up to and including socket creation
                  (fs.ensureDir, touchIdle, auth state, makeWASocket,
                  s.sock = sock; for method code it then emits
                  requesting_code and suspends in delay(5000));
  * codeDelay h - the method=code continuation after delay(5000): it aborts
                  if s.sock changed (line 807), else issues
                  requestPairingCode;
  * codeReq h   - a pending requestPairingCode call on socket h; it is
                  resolved or rejected by the environment, never by the
                  scheduler;
  * backoffWait - a retry continuation suspended in delay(backoff); on
                  resume it aborts when sessions.has(s.id) is false
                  (lines 782 and 825), else re-enters startPairing;
  * cleanEnd / cleanRm - the stages of cleanupSession after its synchronous
                  prefix (clear both timers): awaiting sock.end(), then
                  awaiting fs.remove, after which sessions.delete runs.
                  cleanupSession does not null s.sock (lines 614-628).

Timer fields model armed setTimeout callbacks; external events (connection
close, requestPairingCode settlement, timer expiry, the sweeper) are extra
step rules. -/

def MAX_RETRIES : Nat := 8

inductive Job where
  | startP : Job
  | codeDelay : Nat → Job
  | codeReq : Nat → Job
  | backoffWait : Job
  | cleanEnd : Job
  | cleanRm : Job
deriving DecidableEq, Repr

/-- A continuation the scheduler may resume; a pending requestPairingCode
is settled only by the environment. -/
def Job.ready : Job → Bool
  | .codeReq _ => false
  | _ => true

structure Sess where
  sock : Option Nat
  retries : Nat
  ttl : Bool
  idle : Bool
  lastCode : Bool
  methodCode : Bool
deriving DecidableEq, Repr

structure St where
  sess : Sess
  reg : Bool
  live : List Nat
  next : Nat
  jobs : List Job
deriving DecidableEq, Repr

/-- src/index.js lines 630-635: end the session's current socket, if any,
and null the field. -/
def endSocketOnly (st : St) : St :=
  match st.sess.sock with
  | some h =>
    { st with live := st.live.erase h, sess := { st.sess with sock := none } }
  | none => { st with sess := { st.sess with sock := none } }

/-- The synchronous prefix of cleanupSession (lines 614-617): clear both
timers, then suspend; the remaining stages run as the cleanEnd and cleanRm
continuations.  Note sessions.delete happens only in the last stage. -/
def cleanupBegin (st : St) : St :=
  { st with sess := { st.sess with ttl := false, idle := false },
            jobs := Job.cleanEnd :: st.jobs }

/-- Effect of resuming a ready continuation. -/
def runJob (st : St) (j : Job) : St :=
  match j with
  | .startP =>
    let h := st.next
    let st1 := { st with sess := { st.sess with idle := true, sock := some h },
                         live := st.live ++ [h], next := st.next + 1 }
    if st.sess.methodCode then { st1 with jobs := Job.codeDelay h :: st1.jobs } else st1
  | .codeDelay h =>
    if st.sess.sock = some h then { st with jobs := Job.codeReq h :: st.jobs } else st
  | .codeReq _ => st
  | .backoffWait =>
    if st.reg then { st with jobs := Job.startP :: st.jobs } else st
  | .cleanEnd =>
    match st.sess.sock with
    | some h => { st with live := st.live.erase h, jobs := Job.cleanRm :: st.jobs }
    | none => { st with jobs := Job.cleanRm :: st.jobs }
  | .cleanRm => { st with reg := false }

/-- connection.update close handler (lines 689-801): ignore events of a
stale socket, terminal cleanup on loggedOut, retry on a retryable reason
below MAX_RETRIES (increment, endSocketOnly, suspend in the backoff),
otherwise terminal cleanup. -/
def onClose (st : St) (h : Nat) (r : Option Nat) : St :=
  if st.sess.sock ≠ some h then st
  else if r = some DisconnectReason.loggedOut then cleanupBegin st
  else if isRetryableDisconnectReason r && decide (st.sess.retries < MAX_RETRIES) then
    let st1 := { st with sess := { st.sess with retries := st.sess.retries + 1 } }
    let st2 := endSocketOnly st1
    { st2 with jobs := Job.backoffWait :: st2.jobs }
  else cleanupBegin st

/-- catch of requestPairingCode (lines 814-839): the retry branch checks
only the reason and the attempt count - it does not re-check that its
socket is still s.sock - and the non-retry branches merely report. -/
def onCodeFail (st : St) (r : Option Nat) : St :=
  if isRetryableDisconnectReason r && decide (st.sess.retries < MAX_RETRIES) then
    let st1 := { st with sess := { st.sess with retries := st.sess.retries + 1 } }
    let st2 := endSocketOnly st1
    { st2 with jobs := Job.backoffWait :: st2.jobs }
  else st

/-- success of requestPairingCode (lines 809-813): record the code and
touch the idle timer. -/
def onCodeOk (st : St) : St :=
  { st with sess := { st.sess with lastCode := true, idle := true } }

/-- One interleaved step: a ready continuation resumes, or the environment
delivers a close event for a created socket, settles a pending pairing-code
request, or fires an armed timer or the sweeper. -/
inductive Step : St → St → Prop where
  | fire (st : St) (pre post : List Job) (j : Job) :
      st.jobs = pre ++ j :: post → j.ready = true →
      Step st (runJob { st with jobs := pre ++ post } j)
  | close (st : St) (h : Nat) (r : Option Nat) :
      h < st.next → Step st (onClose st h r)
  | codeFail (st : St) (pre post : List Job) (h : Nat) (r : Option Nat) :
      st.jobs = pre ++ Job.codeReq h :: post →
      Step st (onCodeFail { st with jobs := pre ++ post } r)
  | codeOk (st : St) (pre post : List Job) (h : Nat) :
      st.jobs = pre ++ Job.codeReq h :: post →
      Step st (onCodeOk { st with jobs := pre ++ post })
  | ttlFire (st : St) :
      st.sess.ttl = true → Step st (cleanupBegin st)
  | idleFire (st : St) :
      st.sess.idle = true → Step st (cleanupBegin st)
  | sweep (st : St) :
      st.reg = true → Step st (cleanupBegin st)

/-- State right after POST /api/pair for method code (lines 899-928):
session stored, TTL timer armed, startPairing launched (suspended at its
first await). -/
def initSt : St :=
  { sess := { sock := none, retries := 0, ttl := true, idle := false,
              lastCode := false, methodCode := true },
    reg := true, live := [], next := 0, jobs := [Job.startP] }

def Reach (st : St) : Prop := Relation.ReflTransGen Step initSt st

/-! Concrete trace states used to exhibit the two races.  First the
double-retry trace: a transient close while requestPairingCode is pending,
followed by the rejection of that request, queues two backoff
continuations; both pass the sessions.has check and each re-enters
startPairing. -/

def c1st1 : St :=
  { sess := { sock := some 0, retries := 0, ttl := true, idle := true,
              lastCode := false, methodCode := true },
    reg := true, live := [0], next := 1, jobs := [Job.codeDelay 0] }

def c1st2 : St :=
  { sess := { sock := some 0, retries := 0, ttl := true, idle := true,
              lastCode := false, methodCode := true },
    reg := true, live := [0], next := 1, jobs := [Job.codeReq 0] }

def c1st3 : St :=
  { sess := { sock := none, retries := 1, ttl := true, idle := true,
              lastCode := false, methodCode := true },
    reg := true, live := [], next := 1, jobs := [Job.backoffWait, Job.codeReq 0] }

def c1st4 : St :=
  { sess := { sock := none, retries := 2, ttl := true, idle := true,
              lastCode := false, methodCode := true },
    reg := true, live := [], next := 1, jobs := [Job.backoffWait, Job.backoffWait] }

def c1st5 : St :=
  { sess := { sock := none, retries := 2, ttl := true, idle := true,
              lastCode := false, methodCode := true },
    reg := true, live := [], next := 1, jobs := [Job.startP, Job.backoffWait] }

def c1st6 : St :=
  { sess := { sock := some 1, retries := 2, ttl := true, idle := true,
              lastCode := false, methodCode := true },
    reg := true, live := [1], next := 2, jobs := [Job.codeDelay 1, Job.backoffWait] }

def c1st7 : St :=
  { sess := { sock := some 1, retries := 2, ttl := true, idle := true,
              lastCode := false, methodCode := true },
    reg := true, live := [1], next := 2, jobs := [Job.startP, Job.codeDelay 1] }

def c1st8 : St :=
  { sess := { sock := some 2, retries := 2, ttl := true, idle := true,
              lastCode := false, methodCode := true },
    reg := true, live := [1, 2], next := 3, jobs := [Job.codeDelay 2, Job.codeDelay 1] }

/-! Cleanup race trace: the TTL timer fires (cleanupSession clears the
timers and suspends at sock.end()); before sessions.delete runs, a
non-retryable close arrives, passes the handler's socket-identity check
(cleanupSession left s.sock set) and starts cleanupSession a second time. -/

def c7st2 : St :=
  { sess := { sock := some 0, retries := 0, ttl := false, idle := false,
              lastCode := false, methodCode := true },
    reg := true, live := [0], next := 1, jobs := [Job.cleanEnd, Job.codeDelay 0] }

def c7st3 : St :=
  { sess := { sock := some 0, retries := 0, ttl := false, idle := false,
              lastCode := false, methodCode := true },
    reg := true, live := [0], next := 1,
    jobs := [Job.cleanEnd, Job.cleanEnd, Job.codeDelay 0] }

/-- Witness state for the backoff-abort theorem: a session whose cleanup has
completed (registry entry deleted) while a retry backoff was pending. -/
def stGone : St :=
  { sess := { sock := none, retries := 3, ttl := false, idle := false,
              lastCode := false, methodCode := true },
    reg := false, live := [], next := 5, jobs := [Job.backoffWait] }

/-! ## Theorems -/

/-! ### Base64 facts -/

theorem b64Val_b64Char : ∀ n < 64, b64Val (b64Char n) = n := by decide

theorem b64Char_ne_pad : ∀ n < 64, b64Char n ≠ '=' := by decide

theorem b64Char_ne_quote : ∀ n < 64, b64Char n ≠ '"' := by decide

theorem b64Char_toNat_lt : ∀ n < 64, (b64Char n).toNat < 128 := by decide

theorem unsub_sub_b64Char : ∀ n < 64, unsubUrl (subUrl (b64Char n)) = b64Char n := by
  decide

theorem sub_b64Char_ne_pad : ∀ n < 64, subUrl (b64Char n) ≠ '=' := by decide

theorem b64Decode_b64Encode :
    ∀ (l : List Nat), (∀ b ∈ l, b < 256) → b64Decode (b64Encode l) = some l := by
  have key : ∀ (N : Nat) (l : List Nat), l.length ≤ N → (∀ b ∈ l, b < 256) →
      b64Decode (b64Encode l) = some l := by
    intro N
    induction N with
    | zero =>
      intro l hl _
      have hnil : l = [] := List.eq_nil_of_length_eq_zero (Nat.le_zero.mp hl)
      subst hnil
      rfl
    | succ N ih =>
      intro l hl hb
      rcases l with _ | ⟨b0, _ | ⟨b1, _ | ⟨b2, rest⟩⟩⟩
      · rfl
      · have hb0 : b0 < 256 := hb b0 (by simp)
        have e0 : b64Val (b64Char (b0 / 4)) = b0 / 4 := b64Val_b64Char _ (by omega)
        have e1 : b64Val (b64Char (b0 % 4 * 16)) = b0 % 4 * 16 :=
          b64Val_b64Char _ (by omega)
        simp [b64Encode, b64Decode, e0, e1]
        omega
      · have hb0 : b0 < 256 := hb b0 (by simp)
        have hb1 : b1 < 256 := hb b1 (by simp)
        have e0 : b64Val (b64Char (b0 / 4)) = b0 / 4 := b64Val_b64Char _ (by omega)
        have e1 : b64Val (b64Char (b0 % 4 * 16 + b1 / 16)) = b0 % 4 * 16 + b1 / 16 :=
          b64Val_b64Char _ (by omega)
        have e2 : b64Val (b64Char (b1 % 16 * 4)) = b1 % 16 * 4 :=
          b64Val_b64Char _ (by omega)
        have ne2 : b64Char (b1 % 16 * 4) ≠ '=' := b64Char_ne_pad _ (by omega)
        simp [b64Encode, b64Decode, e0, e1, e2, ne2]
        constructor <;> omega
      · have hb0 : b0 < 256 := hb b0 (by simp)
        have hb1 : b1 < 256 := hb b1 (by simp)
        have hb2 : b2 < 256 := hb b2 (by simp)
        have hbr : ∀ b ∈ rest, b < 256 := fun b hbm => hb b (by simp [hbm])
        have hrest : b64Decode (b64Encode rest) = some rest := by
          apply ih rest _ hbr
          simp at hl
          omega
        have e0 : b64Val (b64Char (b0 / 4)) = b0 / 4 := b64Val_b64Char _ (by omega)
        have e1 : b64Val (b64Char (b0 % 4 * 16 + b1 / 16)) = b0 % 4 * 16 + b1 / 16 :=
          b64Val_b64Char _ (by omega)
        have e2 : b64Val (b64Char (b1 % 16 * 4 + b2 / 64)) = b1 % 16 * 4 + b2 / 64 :=
          b64Val_b64Char _ (by omega)
        have e3 : b64Val (b64Char (b2 % 64)) = b2 % 64 := b64Val_b64Char _ (by omega)
        have ne2 : b64Char (b1 % 16 * 4 + b2 / 64) ≠ '=' := b64Char_ne_pad _ (by omega)
        have ne3 : b64Char (b2 % 64) ≠ '=' := b64Char_ne_pad _ (by omega)
        simp [b64Encode, b64Decode, e0, e1, e2, e3, ne2, ne3, hrest]
        refine ⟨?_, ?_, ?_⟩ <;> omega
  exact fun l hb => key l.length l (Nat.le_refl _) hb

theorem b64Encode_shape :
    ∀ (l : List Nat), (∀ b ∈ l, b < 256) →
      ∃ body k, b64Encode l = body ++ List.replicate k '=' ∧ k ≤ 2 ∧
        (body.length + k) % 4 = 0 ∧ ∀ c ∈ body, ∃ n, n < 64 ∧ c = b64Char n := by
  have key : ∀ (N : Nat) (l : List Nat), l.length ≤ N → (∀ b ∈ l, b < 256) →
      ∃ body k, b64Encode l = body ++ List.replicate k '=' ∧ k ≤ 2 ∧
        (body.length + k) % 4 = 0 ∧ ∀ c ∈ body, ∃ n, n < 64 ∧ c = b64Char n := by
    intro N
    induction N with
    | zero =>
      intro l hl _
      have hnil : l = [] := List.eq_nil_of_length_eq_zero (Nat.le_zero.mp hl)
      subst hnil
      exact ⟨[], 0, rfl, by omega, by simp, by simp⟩
    | succ N ih =>
      intro l hl hb
      rcases l with _ | ⟨b0, _ | ⟨b1, _ | ⟨b2, rest⟩⟩⟩
      · exact ⟨[], 0, rfl, by omega, by simp, by simp⟩
      · have hb0 : b0 < 256 := hb b0 (by simp)
        refine ⟨[b64Char (b0 / 4), b64Char (b0 % 4 * 16)], 2, by simp [b64Encode], by omega,
          by simp, ?_⟩
        intro c hcm
        simp at hcm
        rcases hcm with hcm | hcm
        · exact ⟨b0 / 4, by omega, hcm⟩
        · exact ⟨b0 % 4 * 16, by omega, hcm⟩
      · have hb0 : b0 < 256 := hb b0 (by simp)
        have hb1 : b1 < 256 := hb b1 (by simp)
        refine ⟨[b64Char (b0 / 4), b64Char (b0 % 4 * 16 + b1 / 16), b64Char (b1 % 16 * 4)],
          1, by simp [b64Encode], by omega, by simp, ?_⟩
        intro c hcm
        simp at hcm
        rcases hcm with hcm | hcm | hcm
        · exact ⟨b0 / 4, by omega, hcm⟩
        · exact ⟨b0 % 4 * 16 + b1 / 16, by omega, hcm⟩
        · exact ⟨b1 % 16 * 4, by omega, hcm⟩
      · have hb0 : b0 < 256 := hb b0 (by simp)
        have hb1 : b1 < 256 := hb b1 (by simp)
        have hb2 : b2 < 256 := hb b2 (by simp)
        have hbr : ∀ b ∈ rest, b < 256 := fun b hbm => hb b (by simp [hbm])
        obtain ⟨body, k, he, hk, hm, hmem⟩ := ih rest (by simp at hl; omega) hbr
        refine ⟨b64Char (b0 / 4) :: b64Char (b0 % 4 * 16 + b1 / 16) ::
          b64Char (b1 % 16 * 4 + b2 / 64) :: b64Char (b2 % 64) :: body, k, ?_, hk, ?_, ?_⟩
        · simp [b64Encode, he]
        · simp
          omega
        · intro c hcm
          simp only [List.mem_cons] at hcm
          rcases hcm with hcm | hcm | hcm | hcm | hcm
          · exact ⟨b0 / 4, by omega, hcm⟩
          · exact ⟨b0 % 4 * 16 + b1 / 16, by omega, hcm⟩
          · exact ⟨b1 % 16 * 4 + b2 / 64, by omega, hcm⟩
          · exact ⟨b2 % 64, by omega, hcm⟩
          · exact hmem c hcm
  exact fun l hb => key l.length l (Nat.le_refl _) hb

theorem b64Encode_chars (l : List Nat) (hb : ∀ b ∈ l, b < 256) :
    ∀ c ∈ b64Encode l, c = '=' ∨ ∃ n, n < 64 ∧ c = b64Char n := by
  obtain ⟨body, k, he, _, _, hmem⟩ := b64Encode_shape l hb
  intro c hc
  rw [he] at hc
  rcases List.mem_append.mp hc with h | h
  · exact .inr (hmem c h)
  · exact .inl (List.eq_of_mem_replicate h)

theorem b64Encode_ne_quote (l : List Nat) (hb : ∀ b ∈ l, b < 256) :
    ∀ c ∈ b64Encode l, c ≠ '"' := by
  intro c hc
  rcases b64Encode_chars l hb c hc with h | ⟨n, hn, h⟩
  · subst h; decide
  · subst h; exact b64Char_ne_quote n hn

theorem b64Encode_toNat_lt (l : List Nat) (hb : ∀ b ∈ l, b < 256) :
    ∀ c ∈ b64Encode l, c.toNat < 256 := by
  intro c hc
  rcases b64Encode_chars l hb c hc with h | ⟨n, hn, h⟩
  · subst h; decide
  · subst h; exact Nat.lt_of_lt_of_le (b64Char_toNat_lt n hn) (by omega)

/-! ### URL-safe base64 round trip -/

theorem dropWhile_replicate_append (p : Char → Bool) (c : Char) (hc : p c = true) :
    ∀ (k : Nat) (t : List Char),
      List.dropWhile p (List.replicate k c ++ t) = List.dropWhile p t := by
  intro k
  induction k with
  | zero => intro t; simp
  | succ k ih =>
    intro t
    simp [List.replicate_succ, List.dropWhile_cons, hc, ih t]

theorem stripEq_body (s : List Char) (hs : ∀ c ∈ s, c ≠ '=') (k : Nat) :
    stripEq (s ++ List.replicate k '=') = s := by
  unfold stripEq
  rw [List.reverse_append, List.reverse_replicate]
  rw [dropWhile_replicate_append _ '=' (by decide) k s.reverse]
  cases hrev : s.reverse with
  | nil =>
    have : s = [] := by simpa using congrArg List.reverse hrev
    simp [this]
  | cons a t =>
    have ha : a ∈ s := by
      rw [← List.mem_reverse, hrev]
      simp
    have hne : (a == '=') = false := by
      simpa using hs a ha
    rw [List.dropWhile_cons, hne]
    simp only [Bool.false_eq_true, if_false]
    rw [← hrev, List.reverse_reverse]

theorem b64urlDecodeToBuf_b64url (l : List Nat) (hb : ∀ b ∈ l, b < 256) :
    b64urlDecodeToBuf (b64url l) = some l := by
  obtain ⟨body, k, he, hk, hm, hmem⟩ := b64Encode_shape l hb
  have hsubpad : subUrl '=' = '=' := by decide
  have hmap : (b64Encode l).map subUrl = body.map subUrl ++ List.replicate k '=' := by
    rw [he, List.map_append, List.map_replicate, hsubpad]
  have hbody' : ∀ c ∈ body.map subUrl, c ≠ '=' := by
    intro c hc
    rcases List.mem_map.mp hc with ⟨c0, hc0, rfl⟩
    rcases hmem c0 hc0 with ⟨n, hn, rfl⟩
    exact sub_b64Char_ne_pad n hn
  have hstrip : b64url l = body.map subUrl := by
    rw [b64url, hmap, stripEq_body _ hbody' k]
  have hunsub : (body.map subUrl).map unsubUrl = body := by
    rw [List.map_map]
    have : ∀ c ∈ body, (unsubUrl ∘ subUrl) c = id c := by
      intro c hc
      rcases hmem c hc with ⟨n, hn, rfl⟩
      exact unsub_sub_b64Char n hn
    rw [List.map_congr_left this, List.map_id]
  have hpad : padEq body = body ++ List.replicate k '=' := by
    unfold padEq
    have hblen := List.length_map body subUrl
    interval_cases k
    · rw [if_pos (by omega)]
      simp
    · rw [if_neg (by omega)]
      have h3 : body.length % 4 = 3 := by omega
      rw [h3]
    · rw [if_neg (by omega)]
      have h2 : body.length % 4 = 2 := by omega
      rw [h2]
  unfold b64urlDecodeToBuf
  rw [hstrip, hunsub, hpad, ← he]
  exact b64Decode_b64Encode l hb

/-! ### Decimal rendering -/

theorem digitChar_val : ∀ d < 10, (Nat.digitChar d).toNat - 48 = d := by decide

theorem digitChar_isDigit : ∀ d < 10, (Nat.digitChar d).isDigit = true := by decide

theorem digitChar_toNat_lt : ∀ d < 10, (Nat.digitChar d).toNat < 128 := by decide

theorem digitChar_ne_quote : ∀ d < 10, Nat.digitChar d ≠ '"' := by decide

theorem natToDecAux_eq (fuel : Nat) :
    ∀ n ≤ fuel, natToDecAux fuel n = ((Nat.digits 10 n).reverse).map Nat.digitChar := by
  induction fuel with
  | zero =>
    intro n hn
    have h0 : n = 0 := by omega
    subst h0
    simp [natToDecAux]
  | succ fuel ih =>
    intro n hn
    by_cases h0 : n = 0
    · subst h0
      simp [natToDecAux]
    · have hlt : n / 10 < n := Nat.div_lt_self (Nat.pos_of_ne_zero h0) (by omega)
      rw [natToDecAux, if_neg h0, ih (n / 10) (by omega)]
      rw [Nat.digits_def' (by norm_num : (1 : Nat) < 10) (Nat.pos_of_ne_zero h0)]
      rw [List.reverse_cons, List.map_append]
      rfl

theorem natToDec_chars (n : Nat) :
    ∀ c ∈ natToDec n, ∃ d, d < 10 ∧ c = Nat.digitChar d := by
  unfold natToDec
  split
  · intro c hc
    simp at hc
    subst hc
    exact ⟨0, by omega, rfl⟩
  · rw [natToDecAux_eq n n (Nat.le_refl n)]
    intro c hc
    rcases List.mem_map.mp hc with ⟨d, hd, rfl⟩
    exact ⟨d, Nat.digits_lt_base (by norm_num) (List.mem_reverse.mp hd), rfl⟩

theorem natToDec_all_digits (n : Nat) : ∀ c ∈ natToDec n, c.isDigit = true := by
  intro c hc
  rcases natToDec_chars n c hc with ⟨d, hd, rfl⟩
  exact digitChar_isDigit d hd

theorem natToDec_ne_nil (n : Nat) : natToDec n ≠ [] := by
  unfold natToDec
  split
  · simp
  · rename_i h0
    rw [natToDecAux_eq n n (Nat.le_refl n)]
    simp [Nat.digits_ne_nil_iff_ne_zero, h0]

theorem foldl_digits (L : List Nat) :
    (∀ d ∈ L, d < 10) → ∀ acc : Nat,
      (L.reverse.map Nat.digitChar).foldl (fun a c => a * 10 + (c.toNat - 48)) acc
        = acc * 10 ^ L.length + Nat.ofDigits 10 L := by
  induction L with
  | nil =>
    intro _ acc
    simp [Nat.ofDigits]
  | cons d T ih =>
    intro hL acc
    have hd : d < 10 := hL d (by simp)
    have hT : ∀ x ∈ T, x < 10 := fun x hx => hL x (by simp [hx])
    rw [List.reverse_cons, List.map_append, List.foldl_append]
    rw [ih hT acc]
    simp only [List.map_cons, List.map_nil, List.foldl_cons, List.foldl_nil]
    rw [digitChar_val d hd]
    rw [Nat.ofDigits_cons]
    simp [List.length_cons, Nat.pow_succ]
    ring

theorem natToDec_foldl (n : Nat) :
    (natToDec n).foldl (fun a c => a * 10 + (c.toNat - 48)) 0 = n := by
  unfold natToDec
  split
  · rename_i h0
    subst h0
    decide
  · rw [natToDecAux_eq n n (Nat.le_refl n)]
    rw [foldl_digits _ (fun d hd => Nat.digits_lt_base (by norm_num) hd) 0]
    simp [Nat.ofDigits_digits]

/-! ### Parsing lemmas -/

theorem stripLit_append (l r : List Char) : stripLit l (l ++ r) = some r := by
  induction l with
  | nil => rfl
  | cons c cs ih => simp [stripLit, ih]

theorem splitWhile_append (p : Char → Bool) (a r : List Char)
    (ha : ∀ c ∈ a, p c = true) (hr : ∀ c, r.head? = some c → p c = false) :
    (a ++ r).takeWhile p = a ∧ (a ++ r).dropWhile p = r := by
  induction a with
  | nil =>
    simp only [List.nil_append]
    cases r with
    | nil => simp
    | cons c t =>
      have hc := hr c rfl
      simp [List.takeWhile_cons, List.dropWhile_cons, hc]
  | cons x xs ih =>
    have hx : p x = true := ha x (by simp)
    have ihh := ih (fun c hc => ha c (by simp [hc]))
    simp [List.takeWhile_cons, List.dropWhile_cons, hx, ihh.1, ihh.2]

theorem parseNatCh_spec (n : Nat) (r : List Char)
    (hr : ∀ c, r.head? = some c → c.isDigit = false) :
    parseNatCh (natToDec n ++ r) = some (n, r) := by
  have hsplit := splitWhile_append Char.isDigit (natToDec n) r (natToDec_all_digits n) hr
  unfold parseNatCh
  simp only [hsplit.1, hsplit.2]
  rw [if_neg (natToDec_ne_nil n), natToDec_foldl n]

theorem parseEnvelope_spec (creds : List Char) (ts : Nat)
    (hc : ∀ c ∈ creds, c ≠ '"') :
    parseEnvelope (jsonEnvelope creds ts) = some (1, creds, ts) := by
  have e1 : stripLit litEnvV (jsonEnvelope creds ts)
      = some (natToDec 1 ++ (litCredsKey ++ (creds ++ (litTsKey ++
          (natToDec ts ++ litEnvEnd))))) := by
    rw [jsonEnvelope]
    exact stripLit_append _ _
  have e2 : parseNatCh (natToDec 1 ++ (litCredsKey ++ (creds ++ (litTsKey ++
        (natToDec ts ++ litEnvEnd)))))
      = some (1, litCredsKey ++ (creds ++ (litTsKey ++ (natToDec ts ++ litEnvEnd)))) := by
    apply parseNatCh_spec
    intro c hcc
    rw [show (litCredsKey ++ (creds ++ (litTsKey ++ (natToDec ts ++ litEnvEnd)))).head?
        = some ',' from rfl] at hcc
    simp at hcc
    subst hcc
    decide
  have e3 : stripLit litCredsKey (litCredsKey ++ (creds ++ (litTsKey ++
      (natToDec ts ++ litEnvEnd)))) = some (creds ++ (litTsKey ++
      (natToDec ts ++ litEnvEnd))) := stripLit_append _ _
  have hsplit := splitWhile_append (fun c => c != '"') creds
    (litTsKey ++ (natToDec ts ++ litEnvEnd))
    (by
      intro c hcm
      simpa using hc c hcm)
    (by
      intro c hcc
      rw [show (litTsKey ++ (natToDec ts ++ litEnvEnd)).head? = some '"' from rfl] at hcc
      simp at hcc
      subst hcc
      decide)
  have e5 : stripLit litTsKey (litTsKey ++ (natToDec ts ++ litEnvEnd))
      = some (natToDec ts ++ litEnvEnd) := stripLit_append _ _
  have e6 : parseNatCh (natToDec ts ++ litEnvEnd) = some (ts, litEnvEnd) := by
    apply parseNatCh_spec
    intro c hcc
    rw [show litEnvEnd.head? = some '\x7d' from rfl] at hcc
    simp at hcc
    subst hcc
    decide
  have e7 : stripLit litEnvEnd litEnvEnd = some [] := by
    have := stripLit_append litEnvEnd []
    simpa using this
  unfold parseEnvelope
  rw [e1]
  simp only [Option.bind_eq_bind, Option.some_bind]
  rw [e2]
  simp only [Option.some_bind]
  rw [e3]
  simp only [Option.some_bind]
  rw [hsplit.1, hsplit.2, e5]
  simp only [Option.some_bind]
  rw [e6]
  simp only [Option.some_bind]
  rw [e7]
  simp only [Option.some_bind]
  rfl

/-! ### UTF-8 and envelope byte bounds -/

theorem utf8Decode_utf8Encode (s : List Char) : utf8Decode (utf8Encode s) = s := by
  unfold utf8Decode utf8Encode
  rw [List.map_map]
  have : ∀ c ∈ s, (Char.ofNat ∘ Char.toNat) c = id c := by
    intro c _
    exact Char.ofNat_toNat c
  rw [List.map_congr_left this, List.map_id]

theorem jsonEnvelope_bytes (creds : List Char) (ts : Nat)
    (hcreds : ∀ c ∈ creds, c.toNat < 256) :
    ∀ c ∈ jsonEnvelope creds ts, c.toNat < 256 := by
  intro c hcm
  rw [jsonEnvelope] at hcm
  simp only [List.mem_append] at hcm
  rcases hcm with h | h | h | h | h | h | h
  · revert h; revert c; decide
  · revert h; revert c; decide
  · revert h; revert c; decide
  · exact hcreds c h
  · revert h; revert c; decide
  · rcases natToDec_chars ts c h with ⟨d, hd, rfl⟩
    exact Nat.lt_of_lt_of_le (digitChar_toNat_lt d hd) (by omega)
  · revert h; revert c; decide

theorem jsonEnvelope_ne_nil (creds : List Char) (ts : Nat) :
    1 ≤ (jsonEnvelope creds ts).length := by
  rw [jsonEnvelope]
  have h5 : litEnvV.length = 5 := by decide
  simp [List.length_append]
  omega

theorem isPrefixOf_append_self (p t : List Char) : p.isPrefixOf (p ++ t) = true := by
  induction p with
  | nil => simp
  | cons c cs ih => simp [List.isPrefixOf, ih]

/-- C2: encrypted export round-trips.  The encrypted-mode exporter emits
exactly the token made of the literal MantraEnc~ prefix followed by
unpadded URL-safe base64 of nonce(12) then authTag(16) then ciphertext;
that ciphertext decrypts under the scrypt-derived key to the UTF-8 JSON
envelope with v:1, the base64 of the credential bytes, and the timestamp;
and the offline decrypt utility run with the same secret on that token
outputs exactly the original bytes. -/
theorem encrypted_export_roundtrip (A : AEAD)
    (kdf : List Char → List Char → Nat → List Nat) (secret : List Char)
    (iv : List Nat) (ts : Nat) (b : List Nat)
    (hb : ∀ x ∈ b, x < 256) (hiv : iv.length = 12) (hivb : ∀ x ∈ iv, x < 256)
    (hs : secret ≠ []) :
    exportTokensFromCreds A kdf secret true iv ts b
        = [encTokenOf A kdf secret iv ts b] ∧
    A.dec (kdf secret saltChars 32) iv
        (A.enc (kdf secret saltChars 32) iv
          (utf8Encode (jsonEnvelope (b64Encode b) ts))).2
        (A.enc (kdf secret saltChars 32) iv
          (utf8Encode (jsonEnvelope (b64Encode b) ts))).1
      = some (utf8Encode (jsonEnvelope (b64Encode b) ts)) ∧
    decryptSession A kdf secret (encTokenOf A kdf secret iv ts b) = Except.ok b := by
  refine ⟨rfl, A.dec_enc _ _ _, ?_⟩
  have hkb : ∀ c ∈ b64Encode b, c.toNat < 256 := b64Encode_toNat_lt b hb
  have hquote : ∀ c ∈ b64Encode b, c ≠ '"' := b64Encode_ne_quote b hb
  have hpb : ∀ x ∈ utf8Encode (jsonEnvelope (b64Encode b) ts), x < 256 := by
    intro x hx
    rcases List.mem_map.mp hx with ⟨c, hcm, rfl⟩
    exact jsonEnvelope_bytes _ _ hkb c hcm
  have hctb : ∀ x ∈ (A.enc (kdf secret saltChars 32) iv
      (utf8Encode (jsonEnvelope (b64Encode b) ts))).1, x < 256 :=
    fun x hx => A.out_bytes _ _ _ hpb x (Or.inl hx)
  have htagb : ∀ x ∈ (A.enc (kdf secret saltChars 32) iv
      (utf8Encode (jsonEnvelope (b64Encode b) ts))).2, x < 256 :=
    fun x hx => A.out_bytes _ _ _ hpb x (Or.inr hx)
  have hpk : ∀ x ∈ iv ++ (A.enc (kdf secret saltChars 32) iv
      (utf8Encode (jsonEnvelope (b64Encode b) ts))).2 ++
      (A.enc (kdf secret saltChars 32) iv
      (utf8Encode (jsonEnvelope (b64Encode b) ts))).1, x < 256 := by
    intro x hx
    rcases List.mem_append.mp hx with hx | hx
    · rcases List.mem_append.mp hx with hx | hx
      · exact hivb x hx
      · exact htagb x hx
    · exact hctb x hx
  have htag : (A.enc (kdf secret saltChars 32) iv
      (utf8Encode (jsonEnvelope (b64Encode b) ts))).2.length = 16 := A.tag_length _ _ _
  have hct : (A.enc (kdf secret saltChars 32) iv
      (utf8Encode (jsonEnvelope (b64Encode b) ts))).1.length
      = (utf8Encode (jsonEnvelope (b64Encode b) ts)).length := A.ct_length _ _ _
  have hpl : 1 ≤ (utf8Encode (jsonEnvelope (b64Encode b) ts)).length := by
    unfold utf8Encode
    rw [List.length_map]
    exact jsonEnvelope_ne_nil _ _
  have hurl := b64urlDecodeToBuf_b64url _ hpk
  have hlen : ¬ ((iv ++ (A.enc (kdf secret saltChars 32) iv
      (utf8Encode (jsonEnvelope (b64Encode b) ts))).2 ++
      (A.enc (kdf secret saltChars 32) iv
      (utf8Encode (jsonEnvelope (b64Encode b) ts))).1).length < 12 + 16 + 1) := by
    rw [List.length_append, List.length_append, hiv, htag, hct]
    omega
  have e_iv : (iv ++ (A.enc (kdf secret saltChars 32) iv
      (utf8Encode (jsonEnvelope (b64Encode b) ts))).2 ++
      (A.enc (kdf secret saltChars 32) iv
      (utf8Encode (jsonEnvelope (b64Encode b) ts))).1).take 12 = iv := by
    rw [List.append_assoc]
    exact List.take_left' hiv
  have e_tag : ((iv ++ (A.enc (kdf secret saltChars 32) iv
      (utf8Encode (jsonEnvelope (b64Encode b) ts))).2 ++
      (A.enc (kdf secret saltChars 32) iv
      (utf8Encode (jsonEnvelope (b64Encode b) ts))).1).drop 12).take 16
      = (A.enc (kdf secret saltChars 32) iv
        (utf8Encode (jsonEnvelope (b64Encode b) ts))).2 := by
    rw [List.append_assoc, List.drop_left' hiv]
    exact List.take_left' htag
  have e_ct : (iv ++ (A.enc (kdf secret saltChars 32) iv
      (utf8Encode (jsonEnvelope (b64Encode b) ts))).2 ++
      (A.enc (kdf secret saltChars 32) iv
      (utf8Encode (jsonEnvelope (b64Encode b) ts))).1).drop 28
      = (A.enc (kdf secret saltChars 32) iv
        (utf8Encode (jsonEnvelope (b64Encode b) ts))).1 := by
    have h28 : (iv ++ (A.enc (kdf secret saltChars 32) iv
        (utf8Encode (jsonEnvelope (b64Encode b) ts))).2).length = 28 := by
      rw [List.length_append, hiv, htag]
    exact List.drop_left' h28
  have hpre : litMantraEnc.isPrefixOf (encTokenOf A kdf secret iv ts b) = true := by
    unfold encTokenOf
    exact isPrefixOf_append_self _ _
  have hdrop : (encTokenOf A kdf secret iv ts b).drop litMantraEnc.length
      = b64url (iv ++ (A.enc (kdf secret saltChars 32) iv
        (utf8Encode (jsonEnvelope (b64Encode b) ts))).2 ++
        (A.enc (kdf secret saltChars 32) iv
        (utf8Encode (jsonEnvelope (b64Encode b) ts))).1) := by
    unfold encTokenOf
    exact List.drop_left _ _
  unfold decryptSession
  rw [if_neg (by simp [hpre])]
  rw [if_neg hs]
  rw [hdrop, hurl]
  simp only []
  rw [if_neg hlen]
  rw [e_iv, e_tag, e_ct]
  rw [A.dec_enc]
  simp only []
  rw [utf8Decode_utf8Encode]
  rw [parseEnvelope_spec _ _ hquote]
  simp only []
  rw [if_neg (by simp)]
  rw [b64Decode_b64Encode b hb]

/-- C2 witness: the round trip evaluated at the concrete AEAD instance on
the byte string 104, 105, 0, 255 with a 12-byte nonce and timestamp 0. -/
theorem encrypted_export_roundtrip_w :
    (∀ x ∈ [104, 105, 0, 255], x < 256) ∧
    ([0, 1, 2, 3, 4, 5, 6, 7, 8, 9, 10, 11] : List Nat).length = 12 ∧
    (∀ x ∈ [0, 1, 2, 3, 4, 5, 6, 7, 8, 9, 10, 11], x < 256) ∧
    (['s'] : List Char) ≠ [] ∧
    (exportTokensFromCreds trivAEAD trivKdf ['s'] true
        [0, 1, 2, 3, 4, 5, 6, 7, 8, 9, 10, 11] 0 [104, 105, 0, 255]
        = [encTokenOf trivAEAD trivKdf ['s'] [0, 1, 2, 3, 4, 5, 6, 7, 8, 9, 10, 11] 0
            [104, 105, 0, 255]] ∧
      trivAEAD.dec (trivKdf ['s'] saltChars 32) [0, 1, 2, 3, 4, 5, 6, 7, 8, 9, 10, 11]
          (trivAEAD.enc (trivKdf ['s'] saltChars 32)
            [0, 1, 2, 3, 4, 5, 6, 7, 8, 9, 10, 11]
            (utf8Encode (jsonEnvelope (b64Encode [104, 105, 0, 255]) 0))).2
          (trivAEAD.enc (trivKdf ['s'] saltChars 32)
            [0, 1, 2, 3, 4, 5, 6, 7, 8, 9, 10, 11]
            (utf8Encode (jsonEnvelope (b64Encode [104, 105, 0, 255]) 0))).1
        = some (utf8Encode (jsonEnvelope (b64Encode [104, 105, 0, 255]) 0)) ∧
      decryptSession trivAEAD trivKdf ['s']
          (encTokenOf trivAEAD trivKdf ['s'] [0, 1, 2, 3, 4, 5, 6, 7, 8, 9, 10, 11] 0
            [104, 105, 0, 255])
        = Except.ok [104, 105, 0, 255]) :=
  ⟨by decide, by decide, by decide, by decide,
    encrypted_export_roundtrip trivAEAD trivKdf ['s']
      [0, 1, 2, 3, 4, 5, 6, 7, 8, 9, 10, 11] 0 [104, 105, 0, 255]
      (by decide) (by decide) (by decide) (by decide)⟩

/-- C4: for every attempt count and every failure reason, the retry
decision is false once the attempt count reaches maxRetries - both for the
legacy shouldRetry and for the current build's call-site gate - including
transient reasons and the absent reason. -/
theorem retry_false_at_max (maxRetries retries : Nat) (reason : Option Nat)
    (h : maxRetries ≤ retries) :
    shouldRetry maxRetries retries reason = false ∧
    retryGate maxRetries retries reason = false := by
  constructor
  · simp [shouldRetry, h]
  · have h2 : ¬ (retries < maxRetries) := by omega
    simp [retryGate, h2]

/-- C4 witness: at the default maxRetries of the legacy build, attempt 3 is
refused even with no failure reason. -/
theorem retry_false_at_max_w :
    (3 : Nat) ≤ 3 ∧
      (shouldRetry 3 3 none = false ∧ retryGate 3 3 none = false) :=
  ⟨by decide, retry_false_at_max 3 3 none (by decide)⟩

/-- C5: below the maximum, the current build's retry decision is true for
an absent reason, true exactly for the five-entry known-transient
allow-list (connection closed, connection lost, timed out, restart
required, service unavailable), and in particular false for loggedOut and
for every reason outside the list. -/
theorem retry_below_max_spec (maxRetries retries r : Nat)
    (h : retries < maxRetries) :
    retryGate maxRetries retries none = true ∧
    (retryGate maxRetries retries (some r) = true ↔
      r ∈ [DisconnectReason.connectionClosed, DisconnectReason.connectionLost,
           DisconnectReason.timedOut, DisconnectReason.restartRequired,
           DisconnectReason.unavailableService]) ∧
    retryGate maxRetries retries (some DisconnectReason.loggedOut) = false := by
  refine ⟨?_, ?_, ?_⟩ <;>
    simp [retryGate, isRetryableDisconnectReason, h, DisconnectReason.connectionClosed,
      DisconnectReason.connectionLost, DisconnectReason.timedOut,
      DisconnectReason.restartRequired, DisconnectReason.unavailableService,
      DisconnectReason.loggedOut]

/-- C5 witness: at attempt 0 of 8 (the current build's default), the
decision retries on no reason, refuses connectionReplaced (440, outside the
allow-list), and refuses loggedOut. -/
theorem retry_below_max_spec_w :
    (0 : Nat) < 8 ∧
      (retryGate 8 0 none = true ∧
        (retryGate 8 0 (some DisconnectReason.connectionReplaced) = true ↔
          DisconnectReason.connectionReplaced ∈
            [DisconnectReason.connectionClosed, DisconnectReason.connectionLost,
             DisconnectReason.timedOut, DisconnectReason.restartRequired,
             DisconnectReason.unavailableService]) ∧
        retryGate 8 0 (some DisconnectReason.loggedOut) = false) :=
  ⟨by decide, retry_below_max_spec 8 0 DisconnectReason.connectionReplaced (by decide)⟩

/-- C6: for every attempt count n at least 1, the waited backoff equals
min(capMs, baseDelayMs * n), is non-decreasing in n, and never exceeds the
cap. -/
theorem backoff_linear_capped (base cap n m : Nat) (_h1 : 1 ≤ n) (h2 : n ≤ m) :
    backoffDelay base cap n = min cap (base * n) ∧
    backoffDelay base cap n ≤ backoffDelay base cap m ∧
    backoffDelay base cap n ≤ cap :=
  ⟨rfl, min_le_min (Nat.le_refl cap) (Nat.mul_le_mul_left base h2),
    Nat.min_le_left _ _⟩

/-- C6 witness: defaults RETRY_DELAY_MS = 4000, RETRY_DELAY_MAX_MS = 30000,
attempts 1 and 2. -/
theorem backoff_linear_capped_w :
    (1 : Nat) ≤ 1 ∧ (1 : Nat) ≤ 2 ∧
      (backoffDelay 4000 30000 1 = min 30000 (4000 * 1) ∧
        backoffDelay 4000 30000 1 ≤ backoffDelay 4000 30000 2 ∧
        backoffDelay 4000 30000 1 ≤ 30000) :=
  ⟨by decide, by decide, backoff_linear_capped 4000 30000 1 2 (by decide) (by decide)⟩

/-- C8: phone validation strips non-digits and accepts exactly when 10-15
digits remain; and a method=code creation request with an invalid phone
answers 400, returns no id, and leaves the registry unchanged. -/
theorem validatePhone_spec (phone : List Char) (sessions : List (List Char))
    (freshId : List Char) :
    ((validatePhone phone).isSome ↔
      10 ≤ (phone.filter Char.isDigit).length ∧
        (phone.filter Char.isDigit).length ≤ 15) ∧
    (validatePhone phone = none →
      pairHandler sessions methodCodeLit phone freshId = (400, none, sessions)) := by
  constructor
  · by_cases h : ((phone.filter Char.isDigit).length < 10 ∨
      15 < (phone.filter Char.isDigit).length) <;>
      · simp [validatePhone, h]
        omega
  · intro h
    simp [pairHandler, methodCodeLit, methodQrLit, h]

/-- C8 witness: a three-digit phone is rejected and creates no session. -/
theorem validatePhone_spec_w :
    ((validatePhone ['1', '2', '3']).isSome ↔
      10 ≤ (List.filter Char.isDigit ['1', '2', '3']).length ∧
        (List.filter Char.isDigit ['1', '2', '3']).length ≤ 15) ∧
    (validatePhone ['1', '2', '3'] = none →
      pairHandler [] methodCodeLit ['1', '2', '3'] ['i'] = (400, none, [])) :=
  validatePhone_spec ['1', '2', '3'] [] ['i']

/-- C9: the boot sequence errors out, before any registry exists, exactly
when encrypted export is enabled and the trimmed secret is empty. -/
theorem boot_requires_secret (e : Bool) (s : String) :
    boot e s = Except.error bootErrMsg ↔ (e = true ∧ s.trim = "") := by
  by_cases h : (e = true ∧ s.trim = "") <;> simp [boot, h]

/-- C9 witness: encrypted mode with an unset (empty) secret refuses to
boot. -/
theorem boot_requires_secret_w :
    boot true "" = Except.error bootErrMsg ↔ (true = true ∧ "".trim = "") :=
  boot_requires_secret true ""

/-- C10: both exporters emit exactly one token for every credential input,
in plain and in encrypted mode. -/
theorem exporter_single_token (A : AEAD) (kdf : List Char → List Char → Nat → List Nat)
    (secret : List Char) (encrypted : Bool) (iv : List Nat) (ts : Nat)
    (creds : List Nat) :
    (exportTokensFromCreds A kdf secret encrypted iv ts creds).length = 1 ∧
    (exportSessionTokens creds).length = 1 := by
  cases encrypted <;> simp [exportTokensFromCreds, exportSessionTokens]

/-- C3: a retry continuation that resumes after its session was removed
from the registry is a no-op: the step that consumes the backoffWait job
leaves the session fields, the live-socket set, the timers and the
fresh-socket counter untouched - no new connection is started, no timer is
re-armed, no stale socket is reused. -/
theorem backoff_abort_after_destroy (st : St) (h : st.reg = false) :
    runJob st Job.backoffWait = st := by
  simp [runJob, h]

/-- C3 witness: a destroyed session with a pending backoff continuation. -/
theorem backoff_abort_after_destroy_w :
    stGone.reg = false ∧ runJob stGone Job.backoffWait = stGone :=
  ⟨rfl, backoff_abort_after_destroy stGone rfl⟩

/-- C1 (failing trace): a transient close (428) while requestPairingCode is
pending, followed by the rejected request's catch - which does not re-check
socket identity - queues two backoff continuations; both pass the registry
check and each re-enters startPairing, reaching a state with two live
sockets for one session. -/
theorem two_live_handles_reachable :
    Reach c1st8 ∧ c1st8.live.length = 2 := by
  constructor
  · have h1 : Step initSt c1st1 :=
      (by decide :
        runJob { initSt with jobs := ([] : List Job) ++ [] } Job.startP = c1st1) ▸
        Step.fire initSt [] [] Job.startP (by decide) (by decide)
    have h2 : Step c1st1 c1st2 :=
      (by decide :
        runJob { c1st1 with jobs := ([] : List Job) ++ [] } (Job.codeDelay 0) = c1st2) ▸
        Step.fire c1st1 [] [] (Job.codeDelay 0) (by decide) (by decide)
    have h3 : Step c1st2 c1st3 :=
      (by decide : onClose c1st2 0 (some 428) = c1st3) ▸
        Step.close c1st2 0 (some 428) (by decide)
    have h4 : Step c1st3 c1st4 :=
      (by decide :
        onCodeFail { c1st3 with jobs := [Job.backoffWait] ++ [] } none = c1st4) ▸
        Step.codeFail c1st3 [Job.backoffWait] [] 0 none (by decide)
    have h5 : Step c1st4 c1st5 :=
      (by decide :
        runJob { c1st4 with jobs := ([] : List Job) ++ [Job.backoffWait] }
          Job.backoffWait = c1st5) ▸
        Step.fire c1st4 [] [Job.backoffWait] Job.backoffWait (by decide) (by decide)
    have h6 : Step c1st5 c1st6 :=
      (by decide :
        runJob { c1st5 with jobs := ([] : List Job) ++ [Job.backoffWait] }
          Job.startP = c1st6) ▸
        Step.fire c1st5 [] [Job.backoffWait] Job.startP (by decide) (by decide)
    have h7 : Step c1st6 c1st7 :=
      (by decide :
        runJob { c1st6 with jobs := [Job.codeDelay 1] ++ [] } Job.backoffWait = c1st7) ▸
        Step.fire c1st6 [Job.codeDelay 1] [] Job.backoffWait (by decide) (by decide)
    have h8 : Step c1st7 c1st8 :=
      (by decide :
        runJob { c1st7 with jobs := ([] : List Job) ++ [Job.codeDelay 1] }
          Job.startP = c1st8) ▸
        Step.fire c1st7 [] [Job.codeDelay 1] Job.startP (by decide) (by decide)
    exact .head h1 (.head h2 (.head h3 (.head h4 (.head h5 (.head h6
      (.head h7 (.single h8)))))))
  · decide

/-- C7 (failing trace): after the TTL timer starts cleanupSession (which
clears the timers and suspends at sock.end()), the session is still in the
registry - a lookup succeeds - and a close event passes the handler's
identity check (cleanupSession leaves s.sock set) and starts cleanupSession
a second time: two cleanup continuations are pending at once, so the
cleanup effects run twice and the id is deleted only at the very end. -/
theorem cleanup_not_single_shot :
    Reach c7st3 ∧ c7st3.reg = true ∧ c7st3.jobs.count Job.cleanEnd = 2 := by
  refine ⟨?_, rfl, by decide⟩
  have h1 : Step initSt c1st1 :=
    (by decide :
      runJob { initSt with jobs := ([] : List Job) ++ [] } Job.startP = c1st1) ▸
      Step.fire initSt [] [] Job.startP (by decide) (by decide)
  have h2 : Step c1st1 c7st2 :=
    (by decide : cleanupBegin c1st1 = c7st2) ▸ Step.ttlFire c1st1 (by decide)
  have h3 : Step c7st2 c7st3 :=
    (by decide : onClose c7st2 0 (some 440) = c7st3) ▸
      Step.close c7st2 0 (some 440) (by decide)
  exact .head h1 (.head h2 (.single h3))

end Mantra
